import Mathlib

/-
  Verification of the youtube watch-history scraper
  (src/youtube_scraper.py) against its natural-language specification.

  The source is shallowly embedded: strings are `List Char`, pure helper
  functions become Lean functions, the two batch stages become functions
  over explicit container / table values, and the remote API together with
  the logging side effects are modelled as an explicit lookup oracle and a
  list of log events.
-/

namespace YTScrape

/-- Convenience conversion from a Lean string literal to the character-list
representation used throughout the embedding. -/
def chars (s : String) : List Char := s.toList

/-- ASCII digit character for the value `d % 10`, as produced by the
zero-padded decimal formatting in Python f-strings and strftime. -/
def digitChar (d : Nat) : Char := Char.ofNat (48 + d % 10)

/-- Numeric value of an ASCII digit character. -/
def dv (c : Char) : Nat := c.toNat - 48

/-- Decimal digits of `n`, least significant first, as characters. -/
def natDigitsAux (n : Nat) : List Char :=
  if h : n < 10 then [digitChar n]
  else digitChar (n % 10) :: natDigitsAux (n / 10)
termination_by n
decreasing_by exact Nat.div_lt_self (by omega) (by omega)

/-- Decimal rendering of `n`, most significant digit first (`%d`). -/
def natDigits (n : Nat) : List Char := (natDigitsAux n).reverse

/-- Zero-padded two-digit decimal rendering (`%02d` in a Python f-string):
exactly two digits for `n < 100`, plain decimal rendering otherwise. -/
def pad2 (n : Nat) : List Char :=
  if n < 100 then [digitChar (n / 10), digitChar (n % 10)] else natDigits n

/-- Value of a most-significant-first decimal digit string (`int(...)`). -/
def parseDigits (ds : List Char) : Nat := ds.foldl (fun a c => a * 10 + dv c) 0

/-- The `HH:MM:SS` rendering used by `clean_duration_time`
(src/youtube_scraper.py lines 281-286): hours, minutes and seconds of the
total-second count, each zero-padded to two digits. -/
def formatHMS (total : Nat) : List Char :=
  pad2 (total / 3600) ++ ':' :: pad2 (total % 3600 / 60) ++ ':' :: pad2 (total % 60)

/-- One component of an ISO 8601 duration: an optional decimal number
followed by the unit character; absent components count as zero.  Models
the relevant behaviour of `isodate.parse_duration` componentwise. -/
def durComponent (unit : Char) (s : List Char) : Nat × List Char :=
  let ds := s.takeWhile Char.isDigit
  match s.dropWhile Char.isDigit with
  | c :: r => if c = unit ∧ ds ≠ [] then (parseDigits ds, r) else (0, s)
  | [] => (0, s)

/-- Total seconds of an ISO 8601 duration string of the shape
`P[nD]T[nH][nM][nS]` (the shape YouTube content-details durations take).
Models `isodate.parse_duration` followed by `.total_seconds()`
(src/youtube_scraper.py lines 277-278) on that subset; other shapes
(weeks, months, fractions) are not exercised by the program and
are mapped to `none` (a raised `ISO8601Error`). -/
def parseDuration (s : List Char) : Option Nat :=
  match s with
  | 'P' :: r =>
    let dPart := durComponent 'D' r
    match dPart.2 with
    | 'T' :: r2 =>
      let hPart := durComponent 'H' r2
      let mPart := durComponent 'M' hPart.2
      let sPart := durComponent 'S' mPart.2
      if sPart.2 = [] then
        some (dPart.1 * 86400 + hPart.1 * 3600 + mPart.1 * 60 + sPart.1)
      else none
    | [] => some (dPart.1 * 86400)
    | _ => none
  | _ => none

/-- Embedding of `clean_duration_time` (src/youtube_scraper.py lines
262-286): parse the ISO 8601 duration to total seconds and render it as
zero-padded `HH:MM:SS`.  `none` models the exception raised on an
unparseable duration. -/
def clean_duration_time (s : List Char) : Option (List Char) :=
  (parseDuration s).map formatHMS

/-- Gregorian leap-year test, as in Python `datetime`. -/
def isLeap (y : Nat) : Bool := (y % 4 == 0 && y % 100 != 0) || y % 400 == 0

/-- Number of days in a month, as validated by `datetime.fromisoformat`. -/
def daysInMonth (y m : Nat) : Nat :=
  if m = 2 then (if isLeap y then 29 else 28)
  else if m = 4 ∨ m = 6 ∨ m = 9 ∨ m = 11 then 30 else 31

/-- Four-digit zero-padded decimal rendering (`%Y` for years up to 9999). -/
def render4 (n : Nat) : List Char :=
  [digitChar (n / 1000), digitChar (n / 100), digitChar (n / 10), digitChar n]

/-- The output format of `process_datetime`: `strftime("%Y-%m-%d %H:%M:%S")`
(src/youtube_scraper.py line 306). -/
def fmtDateTime (y mo d h mi s : Nat) : List Char :=
  render4 y ++ '-' :: pad2 mo ++ '-' :: pad2 d ++ ' ' :: pad2 h ++ ':' :: pad2 mi ++ ':' :: pad2 s

/-- Embedding of `process_datetime` (src/youtube_scraper.py lines 289-308):
`datetime.fromisoformat` on the `YYYY-MM-DDTHH:MM:SS[Z]` wire shape the
program receives, followed by `strftime("%Y-%m-%d %H:%M:%S")`.  `none`
models the `ValueError` raised on a malformed string; the component range
checks (month, calendar day, hour, minute, second) mirror the validation
done by `fromisoformat`. -/
def process_datetime (s : List Char) : Option (List Char) :=
  match s with
  | y1 :: y2 :: y3 :: y4 :: '-' :: a1 :: a2 :: '-' :: b1 :: b2 :: 'T'
      :: h1 :: h2 :: ':' :: i1 :: i2 :: ':' :: e1 :: e2 :: rest =>
    if (y1.isDigit && y2.isDigit && y3.isDigit && y4.isDigit
        && a1.isDigit && a2.isDigit && b1.isDigit && b2.isDigit
        && h1.isDigit && h2.isDigit && i1.isDigit && i2.isDigit
        && e1.isDigit && e2.isDigit) && (rest == [] || rest == ['Z']) then
      let y := dv y1 * 1000 + dv y2 * 100 + dv y3 * 10 + dv y4
      let mo := dv a1 * 10 + dv a2
      let d := dv b1 * 10 + dv b2
      let h := dv h1 * 10 + dv h2
      let mi := dv i1 * 10 + dv i2
      let sec := dv e1 * 10 + dv e2
      if 1 ≤ y ∧ 1 ≤ mo ∧ mo ≤ 12 ∧ 1 ≤ d ∧ d ≤ daysInMonth y mo
          ∧ h ≤ 23 ∧ mi ≤ 59 ∧ sec ≤ 59
      then some (fmtDateTime y mo d h mi sec) else none
    else none
  | _ => none

/-- Substring test, modelling the Python `in` operator on strings. -/
def containsSub (p : List Char) : List Char → Bool
  | [] => p.isEmpty
  | c :: rest => p.isPrefixOf (c :: rest) || containsSub p rest

/-- Fueled worker for `replaceAll`; the fuel is an upper bound on the
length of the remaining input, so the recursion is structural. -/
def replaceAllGo (p rep : List Char) : Nat → List Char → List Char
  | _, [] => []
  | 0, s => s
  | fuel + 1, c :: rest =>
    if p ≠ [] ∧ p.isPrefixOf (c :: rest) = true then
      rep ++ replaceAllGo p rep fuel ((c :: rest).drop p.length)
    else c :: replaceAllGo p rep fuel rest

/-- Replacement of every non-overlapping occurrence of `p` by `rep`,
scanning left to right without rescanning the replacement text: the
behaviour of Python `str.replace` for a nonempty pattern. -/
def replaceAll (p rep s : List Char) : List Char := replaceAllGo p rep s.length s

/-- The pattern `PM` looked for by `clean_date_time`. -/
def pmPat : List Char := ['P', 'M']

/-- The pattern `AM` looked for by `clean_date_time`. -/
def amPat : List Char := ['A', 'M']

/-- Embedding of `clean_date_time` (src/youtube_scraper.py lines 311-317):
drop every non-ASCII character, then if `PM` occurs replace every `PM`
with a space-prefixed `PM`, otherwise do the same for `AM`. -/
def clean_date_time (dt : List Char) : List Char :=
  let cleaned := dt.filter fun c => c.toNat < 128
  if containsSub pmPat cleaned then replaceAll pmPat (' ' :: pmPat) cleaned
  else replaceAll amPat (' ' :: amPat) cleaned

/-- Splitting a string at every colon, as needed to read an `HH:MM:SS`
rendering back. -/
def splitCh : List Char → List (List Char)
  | [] => [[]]
  | c :: rest =>
    if c = ':' then [] :: splitCh rest
    else
      match splitCh rest with
      | [] => [[c]]
      | g :: gs => (c :: g) :: gs

/-- Modelled from the spec: the repository has only the rendering
direction of the `HH:MM:SS` round-trip of section 8; the inverse reading
is taken from the words of the claim — split the rendering at the colons
and combine the three decimal fields as
`hours * 3600 + minutes * 60 + seconds`. -/
def parseHMS (s : List Char) : Option Nat :=
  match splitCh s with
  | [a, b, c] =>
    if a ≠ [] ∧ b ≠ [] ∧ c ≠ [] ∧ a.all Char.isDigit ∧ b.all Char.isDigit ∧ c.all Char.isDigit
    then some (parseDigits a * 3600 + parseDigits b * 60 + parseDigits c)
    else none
  | _ => none

/-- The `YYYY-MM-DDTHH:MM:SSZ` wire rendering of an upload timestamp, the
form in which the remote service reports `publishedAt`. -/
def isoWire (y mo d h mi s : Nat) : List Char :=
  render4 y ++ '-' :: pad2 mo ++ '-' :: pad2 d ++ 'T'
    :: pad2 h ++ ':' :: pad2 mi ++ ':' :: pad2 s ++ ['Z']

/-- Characters treated as whitespace by Python `str.strip`: the ASCII
whitespace range together with the Unicode space characters. -/
def pyIsSpace (c : Char) : Bool :=
  let n := c.toNat
  n == 32 || (9 ≤ n && n ≤ 13) || (28 ≤ n && n ≤ 31) || n == 133 || n == 160
    || n == 5760 || (8192 ≤ n && n ≤ 8202) || n == 8232 || n == 8233
    || n == 8239 || n == 8287 || n == 12288

/-- Python `str.strip()`: remove leading and trailing whitespace. -/
def pyStrip (s : List Char) : List Char :=
  ((s.dropWhile pyIsSpace).reverse.dropWhile pyIsSpace).reverse

/-- Characters admitted by the `[a-zA-Z0-9_-]` class of the watch-URL
regular expression at src/youtube_scraper.py line 66. -/
def idChar (c : Char) : Bool := c.isAlpha || c.isDigit || c == '_' || c == '-'

/-- Does the watch-URL regular expression
`https?://(www\.)?youtube\.com/watch\?v=([a-zA-Z0-9_-]+)` match starting
exactly at the head of `s`?  The alternations of the pattern begin with
distinct characters, so first-match testing is equivalent to the
backtracking semantics. -/
def watchUrlAt (s : List Char) : Bool :=
  let afterScheme : Option (List Char) :=
    if (chars "https://").isPrefixOf s then some (s.drop 8)
    else if (chars "http://").isPrefixOf s then some (s.drop 7)
    else none
  match afterScheme with
  | none => false
  | some r =>
    let r2 := if (chars "www.").isPrefixOf r then r.drop 4 else r
    (chars "youtube.com/watch?v=").isPrefixOf r2
      && (match r2.drop 20 with
          | c :: _ => idChar c
          | [] => false)

/-- Python `re.search` with the watch-URL pattern: does the pattern match
at some position of `s`? -/
def reSearchWatch (s : List Char) : Bool := s.tails.any watchUrlAt

/-- An anchor element as seen by the extractor: its visible text and its
href attribute. -/
structure Link where
  text : List Char
  href : List Char
deriving DecidableEq

/-- One watch-history container element
(`div.content-cell.mdl-cell.mdl-cell--6-col.mdl-typography--body-1`), as
accessed by `extract_data_from_html`: the first anchor (candidate
title and URL), the following anchor (channel), and the first plain-text
sibling after the channel anchor (raw watch timestamp). -/
structure Container where
  titleLink : Option Link
  channelLink : Option Link
  dateText : Option (List Char)
deriving DecidableEq

/-- The record dictionary built at src/youtube_scraper.py lines 95-111;
field order matches the dictionary literal. -/
structure WatchRecord where
  title : List Char
  url : List Char
  video_duration : Option (List Char)
  channel_name : Option (List Char)
  channel_url : Option (List Char)
  date_time : Option (List Char)
  video_date_upload : Option (List Char)
  video_views : Option (List Char)
  video_likes : Option (List Char)
  video_dislikes : Option (List Char)
  video_comment_count : Option (List Char)
  video_description : Option (List Char)
  video_tags : Option (List Char)
deriving DecidableEq

/-- The title link of a container, defaulting to an empty link; only used
on containers whose title link exists. -/
def titleLinkD (c : Container) : Link := c.titleLink.getD ⟨[], []⟩

/-- The drop condition of the extractor loop (src/youtube_scraper.py
lines 64-70): no first anchor, empty stripped title text, or the watch-URL
pattern found inside the title text. -/
def dropPred (c : Container) : Bool :=
  c.titleLink.isNone || (pyStrip (titleLinkD c).text).isEmpty
    || reSearchWatch (pyStrip (titleLinkD c).text)

/-- The record emitted for a container that passes the drop condition
(src/youtube_scraper.py lines 72-111).  The raw stripped timestamp text is
stored; the value of `clean_date_time` computed at line 93 is discarded by
the code. -/
def emitRecord (c : Container) : WatchRecord :=
  { title := pyStrip (titleLinkD c).text
  , url := (titleLinkD c).href
  , video_duration := none
  , channel_name := c.channelLink.map fun l => pyStrip l.text
  , channel_url := c.channelLink.map fun l => l.href
  , date_time :=
      match c.channelLink with
      | none => none
      | some _ => c.dateText.map pyStrip
  , video_date_upload := none
  , video_views := none
  , video_likes := none
  , video_dislikes := none
  , video_comment_count := none
  , video_description := none
  , video_tags := none }

/-- Embedding of the scan loop of `extract_data_from_html`
(src/youtube_scraper.py lines 54-111): emitted records in document order
together with the number of warnings logged for dropped containers. -/
def extract_data_from_html : List Container → List WatchRecord × Nat
  | [] => ([], 0)
  | c :: rest =>
    let acc := extract_data_from_html rest
    match c.titleLink with
    | none => (acc.1, acc.2 + 1)
    | some tl =>
      let title := pyStrip tl.text
      if title.isEmpty || reSearchWatch title then (acc.1, acc.2 + 1)
      else (emitRecord c :: acc.1, acc.2)

/-- A Python value stored in the record dictionary: `None` or a string. -/
inductive PyVal
  | pnone
  | pstr (v : List Char)
deriving DecidableEq

/-- Coercion of the optional record fields into dictionary values. -/
def ov : Option (List Char) → PyVal
  | none => .pnone
  | some v => .pstr v

/-- The key-value pairs of the emitted record dictionary, in the order of
the dictionary literal at src/youtube_scraper.py lines 95-111. -/
def recordItems (r : WatchRecord) : List (String × PyVal) :=
  [ ("title", .pstr r.title)
  , ("url", .pstr r.url)
  , ("video_duration", ov r.video_duration)
  , ("channel_name", ov r.channel_name)
  , ("channel_url", ov r.channel_url)
  , ("date_time", ov r.date_time)
  , ("video_date_upload", ov r.video_date_upload)
  , ("video_views", ov r.video_views)
  , ("video_likes", ov r.video_likes)
  , ("video_dislikes", ov r.video_dislikes)
  , ("video_comment_count", ov r.video_comment_count)
  , ("video_description", ov r.video_description)
  , ("video_tags", ov r.video_tags) ]

/-- The fixed CSV header written by `csv.DictWriter`
(src/youtube_scraper.py lines 115-129). -/
def fieldnames : List String :=
  [ "title", "url", "video_duration", "channel_name", "channel_url"
  , "date_time", "video_date_upload", "video_views", "video_likes"
  , "video_dislikes", "video_comment_count", "video_description", "video_tags" ]

/-- A cell of the intermediate table as pandas sees it: missing, a string,
or an integer. -/
inductive Cell
  | na
  | cstr (s : List Char)
  | cint (n : Int)
deriving DecidableEq

/-- One row of the intermediate CSV table, column order as in the header.
The five extractor-written columns are strings; the eight
platform-metadata columns may be missing before enrichment. -/
structure Row where
  title : List Char
  url : List Char
  video_duration : Cell
  channel_name : List Char
  channel_url : List Char
  date_time : List Char
  video_date_upload : Cell
  video_views : Cell
  video_likes : Cell
  video_dislikes : Cell
  video_comment_count : Cell
  video_description : Cell
  video_tags : Cell
deriving DecidableEq

/-- The eight platform-metadata values computed from one API response, in
the order of the assignment tuple at src/youtube_scraper.py lines 208-236. -/
structure Meta where
  video_date_upload : List Char
  video_views : Int
  video_likes : Int
  video_dislikes : Int
  video_comment_count : Int
  video_description : List Char
  video_tags : List Char
  video_duration : List Char
deriving DecidableEq

/-- Overwriting the eight platform-metadata columns of one row, as done by
the `df.loc` assignment (src/youtube_scraper.py lines 196-236). -/
def setMeta (r : Row) (m : Meta) : Row :=
  { r with
    video_date_upload := .cstr m.video_date_upload
  , video_views := .cint m.video_views
  , video_likes := .cint m.video_likes
  , video_dislikes := .cint m.video_dislikes
  , video_comment_count := .cint m.video_comment_count
  , video_description := .cstr m.video_description
  , video_tags := .cstr m.video_tags
  , video_duration := .cstr m.video_duration }

/-- The row-wise effect of `df.loc[df["url"] == video_url, cols] = tuple`:
every row whose url equals the looked-up url receives the metadata, every
other row is untouched. -/
def updateRows (rows : List Row) (u : List Char) (m : Meta) : List Row :=
  rows.map fun r => if r.url = u then setMeta r m else r

/-- The intermediate CSV file: header row plus data rows. -/
structure Table where
  header : List String
  rows : List Row
deriving DecidableEq

/-- The persistence step after a successful lookup: `pd.read_csv`, the
`df.loc` update, and `df.to_csv` rewrite the whole file with the matching
row updated and the column set unchanged (src/youtube_scraper.py lines
194-238). -/
def persistUpdate (t : Table) (u : List Char) (m : Meta) : Table :=
  ⟨t.header, updateRows t.rows u m⟩

/-- The literal canonical watch-URL stem tested by `extract_video_id`. -/
def canonicalPfx : List Char := chars "https://www.youtube.com/watch?v="

/-- Embedding of `extract_video_id` (src/youtube_scraper.py lines
254-259): a non-empty URL containing the canonical stem yields the URL
with every occurrence of the stem removed (`str.replace`); anything else
yields `None` (with a warning logged by the function). -/
def extract_video_id (u : List Char) : Option (List Char) :=
  if u.isEmpty = false && containsSub canonicalPfx u then
    some (replaceAll canonicalPfx [] u)
  else none

/-- The snippet facet of an API item, already shaped: optional fields
model keys the service may omit. -/
structure Snippet where
  publishedAt : Option (List Char)
  description : Option (List Char)
  tags : Option (List (List Char))
deriving DecidableEq

/-- The content-details facet of an API item. -/
structure ContentDetails where
  duration : Option (List Char)
deriving DecidableEq

/-- The statistics facet of an API item; the service may suppress any
count (dislike counts in particular). -/
structure Stats where
  viewCount : Option Int
  likeCount : Option Int
  dislikeCount : Option Int
  commentCount : Option Int
deriving DecidableEq

/-- One item of the videos.list response. -/
structure Item where
  snippet : Snippet
  contentDetails : ContentDetails
  stats : Stats
deriving DecidableEq

/-- Python `",".join` on a list of strings. -/
def joinComma : List (List Char) → List Char
  | [] => []
  | [x] => x
  | x :: xs => x ++ ',' :: joinComma xs

/-- The field mapping of the assignment tuple (src/youtube_scraper.py
lines 208-236): counts default to 0 when a facet is missing, description
defaults to the empty string, absent tags join to the empty string, and a
malformed timestamp or duration raises (modelled as an error value caught
by the surrounding handler). -/
def mapItem (it : Item) : Except (List Char) Meta :=
  match process_datetime (it.snippet.publishedAt.getD []) with
  | none => .error (chars "invalid isoformat string")
  | some up =>
    match clean_duration_time (it.contentDetails.duration.getD []) with
    | none => .error (chars "unable to parse duration string")
    | some dur =>
      .ok
        { video_date_upload := up
        , video_views := it.stats.viewCount.getD 0
        , video_likes := it.stats.likeCount.getD 0
        , video_dislikes := it.stats.dislikeCount.getD 0
        , video_comment_count := it.stats.commentCount.getD 0
        , video_description := it.snippet.description.getD []
        , video_tags := joinComma (it.snippet.tags.getD [])
        , video_duration := dur }

/-- Log and console events produced by the enrichment loop. -/
inductive LogEvent
  | debugRow (url : List Char)
  | warnInvalidUrl (url : List Char)
  | warnFailedExtract (url : List Char)
  | warnNoItems (vid : List Char)
  | warnApiError (vid : List Char) (err : List Char)
deriving DecidableEq

/-- Does a log event record that a row was visited? -/
def isDebugEvent : LogEvent → Bool
  | .debugRow _ => true
  | _ => false

/-- One iteration of the enrichment loop of `extract_data_from_api`
(src/youtube_scraper.py lines 164-251) for the row read from the original
file, threading the current state of the table file.  The lookup oracle
models `youtube.videos().list(...).execute()`: an exception, a response
with no items, or a first item. -/
def enrichStep (lookup : List Char → Except (List Char) (Option Item))
    (st : Table) (row : Row) : Table × List LogEvent :=
  match extract_video_id row.url with
  | none =>
    (st, [.debugRow row.url, .warnInvalidUrl row.url, .warnFailedExtract row.url])
  | some vid =>
    match lookup vid with
    | .error e => (st, [.debugRow row.url, .warnApiError vid e])
    | .ok none => (st, [.debugRow row.url, .warnNoItems vid])
    | .ok (some item) =>
      match mapItem item with
      | .error e => (st, [.debugRow row.url, .warnApiError vid e])
      | .ok m => (persistUpdate st row.url m, [.debugRow row.url])

/-- Folding one row into the accumulated table state and log. -/
def enrichFold (lookup : List Char → Except (List Char) (Option Item))
    (acc : Table × List LogEvent) (row : Row) : Table × List LogEvent :=
  let res := enrichStep lookup acc.1 row
  (res.1, acc.2 ++ res.2)

/-- Embedding of `extract_data_from_api` (src/youtube_scraper.py lines
142-251): the reader iterates over the rows of the file as read at entry,
while each successful lookup rewrites the table state. -/
def extract_data_from_api (lookup : List Char → Except (List Char) (Option Item))
    (t : Table) : Table × List LogEvent :=
  t.rows.foldl (enrichFold lookup) (t, [])

/-- A raw watch timestamp whose separating space before the trailing
marker is the non-ASCII narrow no-break space U+202F, as in real
watch-history exports. -/
def rawStamp : List Char := chars "Jan 1, 2024, 1:23:45 PM"

/-- A well-formed container carrying `rawStamp` as its timestamp text. -/
def bugContainer : Container :=
  { titleLink := some ⟨chars "Interesting video", chars "https://www.youtube.com/watch?v=abc123def45"⟩
  , channelLink := some ⟨chars "Some Channel", chars "https://www.youtube.com/channel/xyz"⟩
  , dateText := some rawStamp }

/-- A concrete API item used to exercise the success path. -/
def wItem : Item :=
  { snippet :=
      { publishedAt := some (chars "2020-04-10T05:36:02Z")
      , description := some (chars "desc")
      , tags := some [chars "a", chars "b"] }
  , contentDetails := { duration := some (chars "PT15M25S") }
  , stats := { viewCount := some 10, likeCount := some 2, dislikeCount := none, commentCount := some 1 } }

/-- The metadata mapped from `wItem`. -/
def wMeta : Meta :=
  { video_date_upload := chars "2020-04-10 05:36:02"
  , video_views := 10
  , video_likes := 2
  , video_dislikes := 0
  , video_comment_count := 1
  , video_description := chars "desc"
  , video_tags := chars "a,b"
  , video_duration := chars "00:15:25" }

/-- A concrete table row with a canonical watch URL. -/
def wRow : Row :=
  { title := chars "Interesting video"
  , url := chars "https://www.youtube.com/watch?v=abc"
  , video_duration := .na
  , channel_name := chars "Some Channel"
  , channel_url := chars "https://www.youtube.com/channel/xyz"
  , date_time := chars "Jan 1, 2024, 1:23:45PM"
  , video_date_upload := .na
  , video_views := .na
  , video_likes := .na
  , video_dislikes := .na
  , video_comment_count := .na
  , video_description := .na
  , video_tags := .na }

/-- A concrete row whose URL lacks the canonical watch-URL stem. -/
def wBadRow : Row := { wRow with url := chars "https://youtu.be/abc" }

/-- A one-row table. -/
def wTable : Table := ⟨fieldnames, [wRow]⟩

/-- A lookup oracle that always succeeds with `wItem`. -/
def wLookupOk : List Char → Except (List Char) (Option Item) := fun _ => .ok (some wItem)

/-- A lookup oracle that always raises. -/
def wLookupErr : List Char → Except (List Char) (Option Item) :=
  fun _ => .error (chars "HttpError 403")

example : clean_duration_time (chars "PT1H2M3S") = some (chars "01:02:03") := by decide
example : clean_duration_time (chars "PT15M25S") = some (chars "00:15:25") := by decide
example : parseDuration (chars "P1DT2S") = some 86402 := by decide
example : process_datetime (chars "2017-11-13T06:06:22Z") = some (chars "2017-11-13 06:06:22") := by decide
example : process_datetime (chars "2017-02-29T06:06:22Z") = none := by decide
example : process_datetime (chars "") = none := by decide
example : clean_date_time (chars "1:23:45 PM") = chars "1:23:45 PM" := by decide
example : clean_date_time (chars "7:00:01 AM") = chars "7:00:01 AM" := by decide
example : clean_date_time (chars "plain") = chars "plain" := by decide

lemma isDigit_digitChar (d : Nat) : (digitChar d).isDigit = true := by
  rw [digitChar]
  have h : d % 10 < 10 := Nat.mod_lt _ (by omega)
  revert h
  generalize d % 10 = k
  intro h
  interval_cases k <;> decide

lemma dv_digitChar (d : Nat) : dv (digitChar d) = d % 10 := by
  have h : d % 10 < 10 := Nat.mod_lt _ (by omega)
  simp only [digitChar, dv]
  revert h
  generalize d % 10 = k
  intro h
  interval_cases k <;> decide

lemma isDigit_ne_colon (c : Char) (h : c.isDigit = true) : c ≠ ':' := by
  intro e
  subst e
  exact absurd h (by decide)

lemma natDigitsAux_ne_nil (n : Nat) : natDigitsAux n ≠ [] := by
  rw [natDigitsAux]
  split <;> simp

lemma natDigitsAux_isDigit (n : Nat) : ∀ c ∈ natDigitsAux n, c.isDigit = true := by
  induction n using Nat.strong_induction_on with
  | _ n ih =>
    by_cases h : n < 10
    · rw [natDigitsAux, dif_pos h]
      intro c hc
      simp only [List.mem_singleton] at hc
      subst hc
      exact isDigit_digitChar _
    · rw [natDigitsAux, dif_neg h]
      intro c hc
      rcases List.mem_cons.mp hc with h1 | h2
      · subst h1
        exact isDigit_digitChar _
      · exact ih (n / 10) (Nat.div_lt_self (by omega) (by omega)) c h2

lemma natDigitsAux_parse (n : Nat) : ∀ acc : Nat,
    ((natDigitsAux n).reverse).foldl (fun a c => a * 10 + dv c) acc
      = acc * 10 ^ (natDigitsAux n).length + n := by
  induction n using Nat.strong_induction_on with
  | _ n ih =>
    intro acc
    by_cases h : n < 10
    · rw [natDigitsAux, dif_pos h]
      simp only [List.reverse_singleton, List.foldl_cons, List.foldl_nil,
        List.length_singleton, pow_one, dv_digitChar]
      omega
    · rw [natDigitsAux, dif_neg h]
      rw [List.reverse_cons, List.foldl_append]
      rw [ih (n / 10) (Nat.div_lt_self (by omega) (by omega)) acc]
      simp only [List.foldl_cons, List.foldl_nil, List.length_cons, pow_succ, dv_digitChar]
      have h2 : n % 10 % 10 = n % 10 := by omega
      rw [h2]
      have h3 : (acc * 10 ^ (natDigitsAux (n / 10)).length + n / 10) * 10 + n % 10
          = acc * (10 ^ (natDigitsAux (n / 10)).length * 10) + (n / 10 * 10 + n % 10) := by
        ring
      rw [h3]
      have h4 : n / 10 * 10 + n % 10 = n := by omega
      rw [h4]

lemma parseDigits_natDigits (n : Nat) : parseDigits (natDigits n) = n := by
  simp only [parseDigits, natDigits]
  rw [natDigitsAux_parse n 0]
  simp

lemma parseDigits_pad2 (n : Nat) : parseDigits (pad2 n) = n := by
  by_cases h : n < 100
  · rw [pad2, if_pos h]
    simp only [parseDigits, List.foldl_cons, List.foldl_nil, dv_digitChar]
    omega
  · rw [pad2, if_neg h]
    exact parseDigits_natDigits n

lemma pad2_isDigit (n : Nat) : ∀ c ∈ pad2 n, c.isDigit = true := by
  by_cases h : n < 100
  · rw [pad2, if_pos h]
    intro c hc
    rcases List.mem_cons.mp hc with h1 | h2
    · subst h1
      exact isDigit_digitChar _
    · simp only [List.mem_singleton] at h2
      subst h2
      exact isDigit_digitChar _
  · rw [pad2, if_neg h]
    intro c hc
    rw [natDigits] at hc
    exact natDigitsAux_isDigit n c (List.mem_reverse.mp hc)

lemma pad2_ne_colon (n : Nat) : ∀ c ∈ pad2 n, c ≠ ':' :=
  fun c hc => isDigit_ne_colon c (pad2_isDigit n c hc)

lemma pad2_ne_nil (n : Nat) : pad2 n ≠ [] := by
  by_cases h : n < 100
  · rw [pad2, if_pos h]
    simp
  · rw [pad2, if_neg h]
    rw [natDigits]
    simpa using natDigitsAux_ne_nil n

lemma pad2_lt100_length (n : Nat) (h : n < 100) : (pad2 n).length = 2 := by
  rw [pad2, if_pos h]
  rfl

lemma splitCh_no_colon (a : List Char) (h : ∀ c ∈ a, c ≠ ':') : splitCh a = [a] := by
  induction a with
  | nil => rfl
  | cons c t ih =>
    simp only [splitCh]
    rw [if_neg (h c (List.mem_cons_self c t))]
    rw [ih fun x hx => h x (List.mem_cons_of_mem c hx)]

lemma splitCh_append (a r : List Char) (h : ∀ c ∈ a, c ≠ ':') :
    splitCh (a ++ ':' :: r) = a :: splitCh r := by
  induction a with
  | nil => simp [splitCh]
  | cons c t ih =>
    simp only [List.cons_append, splitCh, List.append_eq]
    rw [if_neg (h c (List.mem_cons_self c t))]
    rw [ih fun x hx => h x (List.mem_cons_of_mem c hx)]

/-- C8: rendering a total-second count with the `HH:MM:SS` formatting of
`clean_duration_time` (zero-padded fields, hours `n / 3600`, minutes
`n % 3600 / 60`, seconds `n % 60`) and reading the rendering back as
`hours * 3600 + minutes * 60 + seconds` returns the original count, for
every natural count including values beyond 99 hours. -/
theorem duration_roundtrip (n : Nat) : parseHMS (formatHMS n) = some n := by
  have hsplit : splitCh (formatHMS n)
      = [pad2 (n / 3600), pad2 (n % 3600 / 60), pad2 (n % 60)] := by
    rw [formatHMS]
    simp only [List.append_assoc, List.cons_append]
    rw [splitCh_append _ _ (pad2_ne_colon _), splitCh_append _ _ (pad2_ne_colon _),
      splitCh_no_colon _ (pad2_ne_colon _)]
  rw [parseHMS, hsplit]
  simp only []
  rw [if_pos ⟨pad2_ne_nil _, pad2_ne_nil _, pad2_ne_nil _,
    List.all_eq_true.mpr fun c hc => pad2_isDigit _ c hc,
    List.all_eq_true.mpr fun c hc => pad2_isDigit _ c hc,
    List.all_eq_true.mpr fun c hc => pad2_isDigit _ c hc⟩]
  simp only [parseDigits_pad2]
  congr 1
  omega

/-- C7: the two documented duration examples hold, and in general a
parseable duration is rendered from its total-second count by the
zero-padded `HH:MM:SS` formatting, with exactly two hour digits (total
length 8) whenever the duration stays within 99 hours. -/
theorem clean_duration_spec :
    clean_duration_time (chars "PT1H2M3S") = some (chars "01:02:03")
  ∧ clean_duration_time (chars "PT15M25S") = some (chars "00:15:25")
  ∧ ∀ s total, parseDuration s = some total →
      clean_duration_time s = some (formatHMS total)
      ∧ (total ≤ 359999 → (formatHMS total).length = 8) := by
  refine ⟨by decide, by decide, ?_⟩
  intro s total hp
  constructor
  · rw [clean_duration_time, hp]
    rfl
  · intro hle
    rw [formatHMS]
    simp only [List.length_append, List.length_cons]
    rw [pad2_lt100_length _ (by omega), pad2_lt100_length _ (by omega),
      pad2_lt100_length _ (by omega)]

/-- Witness for `clean_duration_spec` at the concrete duration
`PT1H2M3S`, whose total-second count is 3723. -/
theorem clean_duration_spec_witness :
    clean_duration_time (chars "PT1H2M3S") = some (formatHMS 3723)
    ∧ (formatHMS 3723).length = 8 := by
  refine ⟨(clean_duration_spec.2.2 (chars "PT1H2M3S") 3723 (by decide)).1, ?_⟩
  exact (clean_duration_spec.2.2 (chars "PT1H2M3S") 3723 (by decide)).2 (by omega)

lemma daysInMonth_le (y m : Nat) : daysInMonth y m ≤ 31 := by
  rw [daysInMonth]
  split_ifs <;> omega

/-- C6: the documented example holds, and in general an upload timestamp
in its `YYYY-MM-DDTHH:MM:SSZ` wire representation is parsed and
reformatted to the `YYYY-MM-DD HH:MM:SS` form, for every valid calendar
date and time of day with a four-digit year. -/
theorem process_datetime_spec :
    process_datetime (chars "2017-11-13T06:06:22Z") = some (chars "2017-11-13 06:06:22")
  ∧ ∀ y mo d h mi s : Nat,
      1000 ≤ y → y ≤ 9999 → 1 ≤ mo → mo ≤ 12 → 1 ≤ d → d ≤ daysInMonth y mo →
      h ≤ 23 → mi ≤ 59 → s ≤ 59 →
      process_datetime (isoWire y mo d h mi s) = some (fmtDateTime y mo d h mi s) := by
  refine ⟨by decide, ?_⟩
  intro y mo d h mi s hy1 hy2 hm1 hm2 hd1 hd2 hh hmi hs
  have hdm := daysInMonth_le y mo
  have em : pad2 mo = [digitChar (mo / 10), digitChar (mo % 10)] := by
    rw [pad2, if_pos (by omega)]
  have ed : pad2 d = [digitChar (d / 10), digitChar (d % 10)] := by
    rw [pad2, if_pos (by omega)]
  have eh : pad2 h = [digitChar (h / 10), digitChar (h % 10)] := by
    rw [pad2, if_pos (by omega)]
  have emi : pad2 mi = [digitChar (mi / 10), digitChar (mi % 10)] := by
    rw [pad2, if_pos (by omega)]
  have es : pad2 s = [digitChar (s / 10), digitChar (s % 10)] := by
    rw [pad2, if_pos (by omega)]
  rw [isoWire, render4, em, ed, eh, emi, es]
  simp only [List.append_assoc, List.cons_append, List.nil_append]
  simp only [process_datetime, isDigit_digitChar, Bool.and_true, Bool.true_and,
    Bool.and_self, Bool.or_true, Bool.true_or, if_true]
  simp only [dv_digitChar]
  have hz : (['Z'] == ([] : List Char) || ['Z'] == ['Z']) = true := by decide
  rw [if_pos hz]
  have hY : y / 1000 % 10 * 1000 + y / 100 % 10 * 100 + y / 10 % 10 * 10 + y % 10 = y := by
    omega
  have hMO : mo / 10 % 10 * 10 + mo % 10 % 10 = mo := by omega
  have hD : d / 10 % 10 * 10 + d % 10 % 10 = d := by omega
  have hH : h / 10 % 10 * 10 + h % 10 % 10 = h := by omega
  have hMI : mi / 10 % 10 * 10 + mi % 10 % 10 = mi := by omega
  have hS : s / 10 % 10 * 10 + s % 10 % 10 = s := by omega
  rw [hY, hMO, hD, hH, hMI, hS]
  rw [if_pos ⟨by omega, by omega, hm2, by omega, hd2, hh, hmi, hs⟩]

/-- Witness for `process_datetime_spec` at the concrete timestamp
2020-04-10T05:36:02Z. -/
theorem process_datetime_spec_witness :
    process_datetime (isoWire 2020 4 10 5 36 2) = some (fmtDateTime 2020 4 10 5 36 2) :=
  process_datetime_spec.2 2020 4 10 5 36 2 (by omega) (by omega) (by omega) (by omega)
    (by omega) (by decide) (by omega) (by omega) (by omega)

lemma containsSub_append_right (p x r : List Char) (h : containsSub p r = true) :
    containsSub p (x ++ r) = true := by
  induction x with
  | nil => simpa using h
  | cons c t ih =>
    simp only [List.cons_append, containsSub, List.append_eq]
    rw [ih]
    simp

lemma containsSub_head_ne (p0 : Char) (pr s : List Char) (h : ∀ c ∈ s, c ≠ p0) :
    containsSub (p0 :: pr) s = false := by
  induction s with
  | nil => rfl
  | cons c t ih =>
    simp only [containsSub, Bool.or_eq_false_iff]
    refine ⟨?_, ih fun x hx => h x (List.mem_cons_of_mem c hx)⟩
    have hc : (p0 == c) = false :=
      beq_eq_false_iff_ne.mpr (Ne.symm (h c (List.mem_cons_self c t)))
    simp [List.isPrefixOf, hc]

lemma replaceAllGo_nil (p rep : List Char) (fuel : Nat) : replaceAllGo p rep fuel [] = [] := by
  cases fuel <;> rfl

lemma replaceAllGo_twoChar (p0 p1 : Char) (rep : List Char) :
    ∀ (t : List Char) (fuel : Nat), t.length + 2 ≤ fuel → (∀ c ∈ t, c ≠ p0) →
      replaceAllGo [p0, p1] rep fuel (t ++ [p0, p1]) = t ++ rep := by
  intro t
  induction t with
  | nil =>
    intro fuel hf h
    rcases fuel with _ | f
    · omega
    · simp only [List.nil_append, replaceAllGo]
      rw [if_pos ⟨by simp, by simp [List.isPrefixOf]⟩]
      simp [replaceAllGo_nil]
  | cons c t ih =>
    intro fuel hf h
    rcases fuel with _ | f
    · simp only [List.length_cons] at hf
      omega
    · simp only [List.cons_append, replaceAllGo, List.append_eq]
      rw [if_neg]
      · rw [ih f (by simp only [List.length_cons] at hf; omega)
          fun x hx => h x (List.mem_cons_of_mem c hx)]
      · rintro ⟨-, hpre⟩
        have hc : (p0 == c) = false :=
          beq_eq_false_iff_ne.mpr (Ne.symm (h c (List.mem_cons_self c t)))
        simp [List.isPrefixOf, hc] at hpre

lemma replaceAll_twoChar (p0 p1 : Char) (rep t : List Char) (h : ∀ c ∈ t, c ≠ p0) :
    replaceAll [p0, p1] rep (t ++ [p0, p1]) = t ++ rep := by
  rw [replaceAll]
  exact replaceAllGo_twoChar p0 p1 rep t _ (by simp) h

/-- C9: for a raw timestamp whose time text (digits and colons) is
separated from the trailing `PM` or `AM` marker only by a non-ASCII
character, `clean_date_time` returns the time text followed by exactly
one ASCII space and the marker. -/
theorem clean_date_time_spec (t : List Char) (sp : Char)
    (ht : ∀ c ∈ t, c ∈ ['0', '1', '2', '3', '4', '5', '6', '7', '8', '9', ':'])
    (hsp : 128 ≤ sp.toNat) :
    clean_date_time (t ++ sp :: chars "PM") = t ++ chars " PM"
  ∧ clean_date_time (t ++ sp :: chars "AM") = t ++ chars " AM" := by
  have hprop : ∀ c ∈ t, c.toNat < 128 ∧ c ≠ 'P' ∧ c ≠ 'A' := by
    intro c hc
    have h := ht c hc
    fin_cases h <;> exact ⟨by decide, by decide, by decide⟩
  have hfilt : t.filter (fun c => c.toNat < 128) = t :=
    List.filter_eq_self.mpr fun c hc => by simpa using (hprop c hc).1
  have hsp' : (decide (sp.toNat < 128)) = false := by
    simp only [decide_eq_false_iff_not, not_lt]
    omega
  constructor
  · have hclean : (t ++ sp :: chars "PM").filter (fun c => c.toNat < 128)
        = t ++ chars "PM" := by
      rw [List.filter_append, hfilt, List.filter_cons_of_neg (by simpa using hsp')]
      rfl
    rw [clean_date_time]
    simp only [hclean]
    rw [if_pos (containsSub_append_right pmPat t (chars "PM") (by decide))]
    exact replaceAll_twoChar 'P' 'M' (' ' :: pmPat) t fun c hc => (hprop c hc).2.1
  · have hclean : (t ++ sp :: chars "AM").filter (fun c => c.toNat < 128)
        = t ++ chars "AM" := by
      rw [List.filter_append, hfilt, List.filter_cons_of_neg (by simpa using hsp')]
      rfl
    rw [clean_date_time]
    simp only [hclean]
    rw [if_neg]
    · exact replaceAll_twoChar 'A' 'M' (' ' :: amPat) t fun c hc => (hprop c hc).2.2
    · have : containsSub ('P' :: ['M']) (t ++ chars "AM") = false := by
        refine containsSub_head_ne 'P' ['M'] (t ++ chars "AM") fun c hc => ?_
        rcases List.mem_append.mp hc with h1 | h2
        · exact (hprop c h1).2.1
        · fin_cases h2 <;> decide
      simpa [pmPat] using this

/-- Witness for `clean_date_time_spec`: the time text `1:23:45` separated
from the marker by the narrow no-break space U+202F. -/
theorem clean_date_time_spec_witness :
    clean_date_time (chars "1:23:45" ++ ' ' :: chars "PM") = chars "1:23:45" ++ chars " PM" :=
  (clean_date_time_spec (chars "1:23:45") ' ' (by decide) (by decide)).1

/-- C1 fails on the code: for a container whose raw timestamp text
contains a non-ASCII separator, the emitted record stores the raw
stripped text, which differs from its `clean_date_time` normalization;
the cleaned value computed at src/youtube_scraper.py line 93 is never
stored. -/
theorem extractor_datetime_raw_bug :
    (extract_data_from_html [bugContainer]).1.map (fun r => r.date_time) = [some rawStamp]
  ∧ clean_date_time rawStamp = chars "Jan 1, 2024, 1:23:45 PM"
  ∧ clean_date_time rawStamp ≠ rawStamp := by
  refine ⟨by decide, by decide, by decide⟩

lemma extract_eq (cs : List Container) :
    extract_data_from_html cs
      = ((cs.filter fun c => !dropPred c).map emitRecord, cs.countP (fun c => dropPred c)) := by
  induction cs with
  | nil => rfl
  | cons c rest ih =>
    cases hc : c.titleLink with
    | none =>
      have hd : dropPred c = true := by simp [dropPred, hc]
      simp [extract_data_from_html, hc, List.filter_cons, List.countP_cons, hd, ih]
    | some tl =>
      have htl : titleLinkD c = tl := by simp [titleLinkD, hc]
      cases hb : ((pyStrip tl.text).isEmpty || reSearchWatch (pyStrip tl.text)) with
      | true =>
        have hd : dropPred c = true := by simp [dropPred, hc, htl, hb]
        simp [extract_data_from_html, hc, hb, List.filter_cons, List.countP_cons, hd, ih]
      | false =>
        have hd : dropPred c = false := by simp [dropPred, hc, htl, hb]
        simp [extract_data_from_html, hc, hb, List.filter_cons, List.countP_cons, hd, ih]

/-- C2: the extractor emits no record and counts one warning for exactly
the containers whose first anchor is missing, whose stripped title text is
empty, or whose title text contains a watch-URL match; every other
container contributes exactly one record, populated from the container
with all eight platform-metadata fields unset. -/
theorem extractor_drop_rule (cs : List Container) :
    (extract_data_from_html cs).1 = (cs.filter fun c => !dropPred c).map emitRecord
  ∧ (extract_data_from_html cs).2 = cs.countP (fun c => dropPred c)
  ∧ (∀ c : Container, dropPred c
      = (c.titleLink.isNone || (pyStrip (titleLinkD c).text).isEmpty
          || reSearchWatch (pyStrip (titleLinkD c).text)))
  ∧ ∀ c : Container,
      (emitRecord c).title = pyStrip (titleLinkD c).text
      ∧ (emitRecord c).url = (titleLinkD c).href
      ∧ (emitRecord c).channel_name = c.channelLink.map (fun l => pyStrip l.text)
      ∧ (emitRecord c).channel_url = c.channelLink.map (fun l => l.href)
      ∧ (emitRecord c).date_time
          = (match c.channelLink with
             | none => none
             | some _ => c.dateText.map pyStrip)
      ∧ (emitRecord c).video_duration = none
      ∧ (emitRecord c).video_date_upload = none
      ∧ (emitRecord c).video_views = none
      ∧ (emitRecord c).video_likes = none
      ∧ (emitRecord c).video_dislikes = none
      ∧ (emitRecord c).video_comment_count = none
      ∧ (emitRecord c).video_description = none
      ∧ (emitRecord c).video_tags = none := by
  refine ⟨by rw [extract_eq], by rw [extract_eq], fun c => rfl, fun c => ?_⟩
  exact ⟨rfl, rfl, rfl, rfl, rfl, rfl, rfl, rfl, rfl, rfl, rfl, rfl, rfl⟩

/-- C10: the CSV header is exactly the thirteen fixed column names in
order, with `video_duration` third between `url` and `channel_name`, and
every emitted record dictionary carries exactly those keys in that order. -/
theorem csv_header_contract (cs : List Container) :
    fieldnames
      = [ "title", "url", "video_duration", "channel_name", "channel_url"
        , "date_time", "video_date_upload", "video_views", "video_likes"
        , "video_dislikes", "video_comment_count", "video_description", "video_tags" ]
  ∧ fieldnames.length = 13
  ∧ fieldnames[2]? = some "video_duration"
  ∧ ∀ r ∈ (extract_data_from_html cs).1, (recordItems r).map Prod.fst = fieldnames :=
  ⟨rfl, rfl, rfl, fun _ _ => rfl⟩

/-- Witness for `csv_header_contract` on the record emitted for
`bugContainer`. -/
theorem csv_header_contract_witness :
    (recordItems (emitRecord bugContainer)).map Prod.fst = fieldnames :=
  (csv_header_contract [bugContainer]).2.2.2 (emitRecord bugContainer) (by decide)

/-- C3: the persistence step of a successful update keeps the header, the
row count and the column values of every non-matching row, changes only
the eight platform-metadata columns of the matching row (its title, url,
channel and watch-timestamp columns are kept), and is exactly what the
success branch of the enrichment iteration performs. -/
theorem enricher_update_frame (t : Table) (u : List Char) (m : Meta) :
    (persistUpdate t u m).header = t.header
  ∧ (persistUpdate t u m).rows.length = t.rows.length
  ∧ (persistUpdate t u m).rows = t.rows.map (fun r => if r.url = u then setMeta r m else r)
  ∧ (∀ r : Row, r.url ≠ u → (if r.url = u then setMeta r m else r) = r)
  ∧ (∀ r : Row, (setMeta r m).title = r.title ∧ (setMeta r m).url = r.url
      ∧ (setMeta r m).channel_name = r.channel_name
      ∧ (setMeta r m).channel_url = r.channel_url
      ∧ (setMeta r m).date_time = r.date_time)
  ∧ (∀ r : Row, (setMeta r m).video_date_upload = Cell.cstr m.video_date_upload
      ∧ (setMeta r m).video_views = Cell.cint m.video_views
      ∧ (setMeta r m).video_likes = Cell.cint m.video_likes
      ∧ (setMeta r m).video_dislikes = Cell.cint m.video_dislikes
      ∧ (setMeta r m).video_comment_count = Cell.cint m.video_comment_count
      ∧ (setMeta r m).video_description = Cell.cstr m.video_description
      ∧ (setMeta r m).video_tags = Cell.cstr m.video_tags
      ∧ (setMeta r m).video_duration = Cell.cstr m.video_duration)
  ∧ (∀ (lookup : List Char → Except (List Char) (Option Item)) (st : Table) (row : Row)
        (vid : List Char) (item : Item) (m2 : Meta),
      extract_video_id row.url = some vid →
      lookup vid = Except.ok (some item) →
      mapItem item = Except.ok m2 →
      enrichStep lookup st row = (persistUpdate st row.url m2, [LogEvent.debugRow row.url])) := by
  refine ⟨rfl, by simp [persistUpdate, updateRows], rfl, ?_, ?_, ?_, ?_⟩
  · intro r h
    rw [if_neg h]
  · intro r
    exact ⟨rfl, rfl, rfl, rfl, rfl⟩
  · intro r
    exact ⟨rfl, rfl, rfl, rfl, rfl, rfl, rfl, rfl⟩
  · intro lookup st row vid item m2 k1 k2 k3
    simp [enrichStep, k1, k2, k3]

/-- Witness for `enricher_update_frame`: the success branch on a concrete
one-row table with a concrete item. -/
theorem enricher_update_frame_witness :
    enrichStep wLookupOk wTable wRow
      = (persistUpdate wTable wRow.url wMeta, [LogEvent.debugRow wRow.url]) :=
  (enricher_update_frame wTable wRow.url wMeta).2.2.2.2.2.2 wLookupOk wTable wRow
    (chars "abc") wItem wMeta (by decide) rfl rfl

lemma isPrefixOf_self_append (p x : List Char) : p.isPrefixOf (p ++ x) = true := by
  induction p with
  | nil => simp [List.isPrefixOf]
  | cons a as ih => simp [List.isPrefixOf, ih]

lemma containsSub_of_isPrefixOf (p s : List Char) (hp : p ≠ []) (h : p.isPrefixOf s = true) :
    containsSub p s = true := by
  cases s with
  | nil =>
    cases p with
    | nil => exact absurd rfl hp
    | cons a as => simp [List.isPrefixOf] at h
  | cons c rest => simp [containsSub, h]

lemma replaceAllGo_not_contains (p rep : List Char) :
    ∀ (s : List Char) (fuel : Nat), containsSub p s = false → replaceAllGo p rep fuel s = s := by
  intro s
  induction s with
  | nil =>
    intro fuel _
    exact replaceAllGo_nil p rep fuel
  | cons c t ih =>
    intro fuel h
    simp only [containsSub, Bool.or_eq_false_iff] at h
    rcases fuel with _ | f
    · rfl
    · simp only [replaceAllGo]
      rw [if_neg]
      · rw [ih f h.2]
      · rintro ⟨-, hpre⟩
        simp [h.1] at hpre

lemma replaceAllGo_stem (p rep idf : List Char) (fuel : Nat) (hp : p ≠ [])
    (hf : (p ++ idf).length ≤ fuel) (h : containsSub p idf = false) :
    replaceAllGo p rep fuel (p ++ idf) = rep ++ idf := by
  cases p with
  | nil => exact absurd rfl hp
  | cons a as =>
    rcases fuel with _ | f
    · simp [List.length_append] at hf
    · simp only [List.cons_append, replaceAllGo, List.append_eq]
      rw [if_pos ⟨by simp, by simp [List.isPrefixOf, isPrefixOf_self_append]⟩]
      rw [show ((a :: (as ++ idf)).drop (a :: as).length) = idf by
        simp only [List.length_cons, List.drop_succ_cons]
        exact List.drop_left as idf]
      rw [replaceAllGo_not_contains (a :: as) rep idf f h]

lemma replaceAll_stem (idf : List Char) (h : containsSub canonicalPfx idf = false) :
    replaceAll canonicalPfx [] (canonicalPfx ++ idf) = idf := by
  rw [replaceAll]
  rw [replaceAllGo_stem canonicalPfx [] idf _ (by decide) (le_refl _) h]
  rfl

/-- C4: a row URL without the canonical watch-URL stem fails identifier
extraction, the row is left unmodified with warnings logged and the loop
moves on; a URL containing the stem yields the URL with the stem removed,
which for a well-formed canonical URL is exactly the trailing identifier. -/
theorem video_id_extraction (lookup : List Char → Except (List Char) (Option Item))
    (st : Table) (row : Row)
    (hno : containsSub canonicalPfx row.url = false) :
    extract_video_id row.url = none
  ∧ enrichStep lookup st row
      = (st, [LogEvent.debugRow row.url, LogEvent.warnInvalidUrl row.url,
          LogEvent.warnFailedExtract row.url])
  ∧ (∀ u : List Char, containsSub canonicalPfx u = true →
      extract_video_id u = some (replaceAll canonicalPfx [] u))
  ∧ (∀ idf : List Char, containsSub canonicalPfx idf = false →
      extract_video_id (canonicalPfx ++ idf) = some idf) := by
  have h1 : extract_video_id row.url = none := by
    rw [extract_video_id, hno]
    simp
  have h3 : ∀ u : List Char, containsSub canonicalPfx u = true →
      extract_video_id u = some (replaceAll canonicalPfx [] u) := by
    intro u hu
    cases u with
    | nil =>
      rw [containsSub] at hu
      exact absurd hu (by decide)
    | cons a t => simp [extract_video_id, hu]
  refine ⟨h1, by simp [enrichStep, h1], h3, ?_⟩
  intro idf hid
  have hcon : containsSub canonicalPfx (canonicalPfx ++ idf) = true :=
    containsSub_of_isPrefixOf _ _ (by decide) (isPrefixOf_self_append _ _)
  rw [h3 _ hcon, replaceAll_stem idf hid]

/-- Witness for `video_id_extraction` at a shortened (youtu.be) URL. -/
theorem video_id_extraction_witness :
    extract_video_id wBadRow.url = none
  ∧ enrichStep wLookupOk wTable wBadRow
      = (wTable, [LogEvent.debugRow wBadRow.url, LogEvent.warnInvalidUrl wBadRow.url,
          LogEvent.warnFailedExtract wBadRow.url]) :=
  ⟨(video_id_extraction wLookupOk wTable wBadRow (by decide)).1,
    (video_id_extraction wLookupOk wTable wBadRow (by decide)).2.1⟩

lemma enrichStep_debug_count (lookup : List Char → Except (List Char) (Option Item))
    (st : Table) (row : Row) :
    ((enrichStep lookup st row).2).countP isDebugEvent = 1 := by
  cases hv : extract_video_id row.url with
  | none => simp [enrichStep, hv, isDebugEvent]
  | some vid =>
    cases hl : lookup vid with
    | error e => simp [enrichStep, hv, hl, isDebugEvent]
    | ok oi =>
      cases oi with
      | none => simp [enrichStep, hv, hl, isDebugEvent]
      | some item =>
        cases hm : mapItem item with
        | error e => simp [enrichStep, hv, hl, hm, isDebugEvent]
        | ok m => simp [enrichStep, hv, hl, hm, isDebugEvent]

lemma enrichFold_debug_count (lookup : List Char → Except (List Char) (Option Item)) :
    ∀ (rows : List Row) (st : Table) (lg : List LogEvent),
      ((rows.foldl (enrichFold lookup) (st, lg)).2).countP isDebugEvent
        = lg.countP isDebugEvent + rows.length := by
  intro rows
  induction rows with
  | nil =>
    intro st lg
    simp
  | cons r rest ih =>
    intro st lg
    rw [List.foldl_cons]
    rw [show enrichFold lookup (st, lg) r
        = ((enrichStep lookup st r).1, lg ++ (enrichStep lookup st r).2) from rfl]
    rw [ih]
    rw [List.countP_append, enrichStep_debug_count]
    simp only [List.length_cons]
    omega

/-- C5: an exception raised by the remote lookup for a row, or by the
field mapping of its response, is caught: the table state is unchanged, a
warning carrying the identifier and the error is logged, and the fold
still visits every row of the batch (one visit event per row, to the last
row). -/
theorem enricher_failure_containment
    (lookup : List Char → Except (List Char) (Option Item))
    (t st : Table) (row : Row) (vid err : List Char)
    (h1 : extract_video_id row.url = some vid)
    (h2 : lookup vid = Except.error err) :
    enrichStep lookup st row = (st, [LogEvent.debugRow row.url, LogEvent.warnApiError vid err])
  ∧ (∀ (st2 : Table) (row2 : Row) (vid2 : List Char) (item : Item) (merr : List Char),
      extract_video_id row2.url = some vid2 →
      lookup vid2 = Except.ok (some item) →
      mapItem item = Except.error merr →
      enrichStep lookup st2 row2
        = (st2, [LogEvent.debugRow row2.url, LogEvent.warnApiError vid2 merr]))
  ∧ ((extract_data_from_api lookup t).2).countP isDebugEvent = t.rows.length := by
  refine ⟨by simp [enrichStep, h1, h2], ?_, ?_⟩
  · intro st2 row2 vid2 item merr k1 k2 k3
    simp [enrichStep, k1, k2, k3]
  · rw [extract_data_from_api, enrichFold_debug_count]
    simp

/-- Witness for `enricher_failure_containment`: a lookup oracle that
always raises leaves the concrete one-row table unchanged. -/
theorem enricher_failure_containment_witness :
    enrichStep wLookupErr wTable wRow
      = (wTable, [LogEvent.debugRow wRow.url,
          LogEvent.warnApiError (chars "abc") (chars "HttpError 403")]) :=
  (enricher_failure_containment wLookupErr wTable wTable wRow (chars "abc")
    (chars "HttpError 403") (by decide) rfl).1

end YTScrape
